import Mathlib

/-!
A verification development for a two-player "War" card game engine
(`card.rs` and `game.rs`): cards, per-player draw/won stacks with a
recycle-shuffle, the recursive round resolution with tie chains, and the
capped game loop.

Randomness (the recycle shuffle of the won stack) is modelled by an
explicit `Shuffle` oracle: a function on card lists that is required to
return a permutation of its input, exactly the guarantee of a uniform
shuffle.  Statements quantify over the oracle where the source draws
fresh randomness; `idShuffle` (the identity permutation, one possible
outcome of a uniform shuffle) instantiates witnesses.

`resolve_round` and `play_game_loop` are defined by well-founded
recursion, mirroring the source; `resolveRoundF`/`playRoundF` are
fuel-indexed structural mirrors used for kernel evaluation, proved equal
to the originals whenever the fuel exceeds the left player's card count.
-/

set_option maxHeartbeats 1000000

/-- The four suites of `card.rs` (`enum Suite`), in source order. -/
inductive Suite
  | Heart
  | Club
  | Diamond
  | Spade
deriving DecidableEq

/-- `const SUITE_SIZE: usize = 13`. -/
def SUITE_SIZE : Nat := 13

/-- A playing card (`struct Card`): a suite and a rank (`number: u8`). -/
structure Card where
  suite : Suite
  number : Nat
deriving DecidableEq

/-- `Card::create`: rejects ranks outside `[1, SUITE_SIZE]`, otherwise builds the card. -/
def Card.create (suite : Suite) (number : Nat) : Option Card :=
  if number < 1 ∨ number > SUITE_SIZE then none
  else some { suite := suite, number := number }

/-- `type Stack = VecDeque<Card>`; the list head is the front of the deque. -/
abbrev Stack : Type := List Card

/-- The shuffle oracle standing in for `thread_rng`-driven `shuffle`:
any function returning a permutation of its input list. -/
structure Shuffle where
  f : List Card → List Card
  perm : ∀ l, (f l).Perm l

/-- The identity permutation, one possible outcome of a uniform shuffle. -/
def idShuffle : Shuffle := ⟨fun l => l, fun l => List.Perm.refl l⟩

/-- `struct PlayerStacks`: a draw stack and a won stack. -/
structure PlayerStacks where
  draw_stack : Stack
  won_stack : Stack
deriving DecidableEq

/-- `PlayerStacks::new`: the given deck as the draw stack, an empty won stack. -/
def PlayerStacks.new (stack : Stack) : PlayerStacks :=
  { draw_stack := stack, won_stack := [] }

/-- `PlayerStacks::is_empty`: both stacks empty. -/
def PlayerStacks.is_empty (p : PlayerStacks) : Bool :=
  p.draw_stack.isEmpty && p.won_stack.isEmpty

/-- `PlayerStacks::total_cards`: sum of the two stack lengths. -/
def PlayerStacks.total_cards (p : PlayerStacks) : Nat :=
  p.draw_stack.length + p.won_stack.length

/-- `PlayerStacks::shuffle_won_stack`: replace the draw stack by the shuffled
won stack and clear the won stack. -/
def PlayerStacks.shuffle_won_stack (sh : Shuffle) (p : PlayerStacks) : PlayerStacks :=
  { draw_stack := sh.f p.won_stack, won_stack := [] }

/-- `self.draw_stack.pop_front()`: remove and return the front card of the draw stack. -/
def PlayerStacks.draw_pop (q : PlayerStacks) : Option Card × PlayerStacks :=
  match q.draw_stack with
  | [] => (none, q)
  | c :: rest => (some c, { q with draw_stack := rest })

/-- `PlayerStacks::pop_front`: recycle the won stack when the draw stack is
dry, then pop the front of the draw stack. -/
def PlayerStacks.pop_front (sh : Shuffle) (p : PlayerStacks) : Option Card × PlayerStacks :=
  PlayerStacks.draw_pop
    (if p.draw_stack.isEmpty && !p.won_stack.isEmpty then p.shuffle_won_stack sh else p)

/-- `PlayerStacks::append`: move a batch of cards to the back of the won stack;
the second component is the drained caller batch (`VecDeque::append` empties
its argument). -/
def PlayerStacks.append (p : PlayerStacks) (cards : List Card) : PlayerStacks × List Card :=
  ({ p with won_stack := p.won_stack ++ cards }, [])

/-- `deck(suite_size)`: for each suite in source order the ranks `1..=suite_size`. -/
def deck (suite_size : Nat) : List Card :=
  [Suite.Heart, Suite.Club, Suite.Diamond, Suite.Spade].flatMap
    (fun s => (List.range suite_size).map (fun n => { suite := s, number := n + 1 }))

/-- The pairs of players producible by `create_default_stacks`: the two draw
stacks are the two halves of some shuffle of the default 52-card deck, and
both won stacks are empty. -/
def DefaultSetup (left right : PlayerStacks) : Prop :=
  left.won_stack = [] ∧ right.won_stack = [] ∧
    left.draw_stack.length = 26 ∧ right.draw_stack.length = 26 ∧
    (left.draw_stack ++ right.draw_stack).Perm (deck SUITE_SIZE)

/-- `enum RoundResult` of `game.rs`. -/
inductive RoundResult
  | Continue
  | GameOver
deriving DecidableEq

/-- `enum ResolutionResult` of `game.rs`. -/
inductive ResolutionResult
  | LeftWins
  | RightWins
  | GameOver
deriving DecidableEq

/-- `enum CompareResult` of `game.rs`. -/
inductive CompareResult
  | Equal
  | LeftWins
  | RightWins
deriving DecidableEq

/-- `compare_cards`: rank comparison only. -/
def compare_cards (left_card right_card : Card) : CompareResult :=
  if left_card.number = right_card.number then CompareResult.Equal
  else if left_card.number > right_card.number then CompareResult.LeftWins
  else CompareResult.RightWins

/-- The recursion of `resolve_round`, indexed by structural fuel: pop one card
from each player, compare, and on a tie recurse, accumulating the contested
cards.  Returns the contested cards, the resolution, and the two updated
players.  Fuel never runs out when it exceeds `left.total_cards`
(`resolveRoundF_irrel`), and `resolve_round` below applies it with such fuel;
the fuel-0 branch is unreachable from `resolve_round`.  The two trailing
`none` branches are also unreachable (the source unwraps there): `pop_front`
on a non-empty `PlayerStacks` always yields a card. -/
def resolveRoundF (fuel : Nat) (sh : Shuffle) (left right : PlayerStacks) :
    List Card × ResolutionResult × PlayerStacks × PlayerStacks :=
  match fuel with
  | 0 => ([], ResolutionResult.GameOver, left, right)
  | fuel + 1 =>
    if left.is_empty || right.is_empty then ([], ResolutionResult.GameOver, left, right)
    else
      match left.pop_front sh, right.pop_front sh with
      | (some left_card, left'), (some right_card, right') =>
        match compare_cards left_card right_card with
        | CompareResult.LeftWins =>
            ([left_card, right_card], ResolutionResult.LeftWins, left', right')
        | CompareResult.RightWins =>
            ([left_card, right_card], ResolutionResult.RightWins, left', right')
        | CompareResult.Equal =>
            let t := resolveRoundF fuel sh left' right'
            (left_card :: right_card :: t.1, t.2.1, t.2.2.1, t.2.2.2)
      | (none, _), _ => ([], ResolutionResult.GameOver, left, right)
      | (some _, _), (none, _) => ([], ResolutionResult.GameOver, left, right)

/-- `resolve_round` of `game.rs`: each recursive call removes one card from
the left player, so `left.total_cards + 1` fuel always suffices;
`resolve_round_eq` below recovers the source's recurrence verbatim. -/
def resolve_round (sh : Shuffle) (left right : PlayerStacks) :
    List Card × ResolutionResult × PlayerStacks × PlayerStacks :=
  resolveRoundF (left.total_cards + 1) sh left right

/-- `play_round`: resolve one round and deposit the contested cards with the
winner; `GameOver` deposits nothing. -/
def play_round (sh : Shuffle) (left right : PlayerStacks) :
    RoundResult × PlayerStacks × PlayerStacks :=
  match resolve_round sh left right with
  | (won_cards, ResolutionResult.LeftWins, l, r) =>
      (RoundResult.Continue, (l.append won_cards).1, r)
  | (won_cards, ResolutionResult.RightWins, l, r) =>
      (RoundResult.Continue, l, (r.append won_cards).1)
  | (_, ResolutionResult.GameOver, l, r) =>
      (RoundResult.GameOver, l, r)

/-- The `while` loop of `play_game`, entered with state `Continue`: increment
the counter, play a round, and break once the counter passes 100000. -/
def play_game_loop (sh : Shuffle) (left right : PlayerStacks) (counter : Nat) :
    Nat × PlayerStacks × PlayerStacks :=
  match play_round sh left right with
  | (res, l, r) =>
    if 100000 < counter + 1 then (counter + 1, l, r)
    else match res with
      | RoundResult.Continue => play_game_loop sh l r (counter + 1)
      | RoundResult.GameOver => (counter + 1, l, r)
termination_by 100001 - counter
decreasing_by omega

/-- `play_game`: returns the round count together with the final mutated
players (the source mutates them in place). -/
def play_game (sh : Shuffle) (left right : PlayerStacks) :
    Nat × PlayerStacks × PlayerStacks :=
  if left.is_empty || right.is_empty then (0, left, right)
  else play_game_loop sh left right 0

/-- One round as a step function on the pair of players. -/
def gameStep (sh : Shuffle) (s : PlayerStacks × PlayerStacks) : PlayerStacks × PlayerStacks :=
  (play_round sh s.1 s.2).2

/-- The round result at a state under the identity shuffle. -/
def roundResId (s : PlayerStacks × PlayerStacks) : RoundResult :=
  (play_round idShuffle s.1 s.2).1

/-- Bounded run checker: `n` rounds from `s` under the identity shuffle all
keep 52 cards in play and all resolve to `Continue`. -/
def okRun : Nat → PlayerStacks × PlayerStacks → Bool
  | 0, _ => true
  | n + 1, s =>
    (s.1.total_cards + s.2.total_cards == 52) && (roundResId s == RoundResult.Continue)
      && okRun n (gameStep idShuffle s)

/-- Every round from `s` onwards (under oracle `sh`) resolves to `Continue`. -/
def ContinueForever (sh : Shuffle) (s : PlayerStacks × PlayerStacks) : Prop :=
  ∀ n, (play_round sh ((gameStep sh)^[n] s).1 ((gameStep sh)^[n] s).2).1 = RoundResult.Continue

/-- A 26-card deck (one half of a default split) that cycles forever against
`cycleRightDeck` under the identity recycle shuffle: odd positions win their
round, even positions lose it, and after 52 rounds the original position of
every card recurs. -/
def cycleLeftDeck : List Card :=
  [⟨Suite.Heart, 13⟩, ⟨Suite.Heart, 7⟩, ⟨Suite.Club, 13⟩, ⟨Suite.Heart, 6⟩,
   ⟨Suite.Diamond, 13⟩, ⟨Suite.Club, 6⟩, ⟨Suite.Spade, 13⟩, ⟨Suite.Heart, 5⟩,
   ⟨Suite.Heart, 12⟩, ⟨Suite.Club, 5⟩, ⟨Suite.Club, 12⟩, ⟨Suite.Heart, 4⟩,
   ⟨Suite.Diamond, 12⟩, ⟨Suite.Club, 4⟩, ⟨Suite.Spade, 12⟩, ⟨Suite.Heart, 3⟩,
   ⟨Suite.Heart, 11⟩, ⟨Suite.Club, 3⟩, ⟨Suite.Club, 11⟩, ⟨Suite.Heart, 2⟩,
   ⟨Suite.Diamond, 11⟩, ⟨Suite.Club, 2⟩, ⟨Suite.Spade, 11⟩, ⟨Suite.Heart, 1⟩,
   ⟨Suite.Heart, 10⟩, ⟨Suite.Club, 1⟩]

/-- The other 26 cards of the default deck, ordered to cycle against
`cycleLeftDeck`. -/
def cycleRightDeck : List Card :=
  [⟨Suite.Club, 7⟩, ⟨Suite.Club, 10⟩, ⟨Suite.Diamond, 6⟩, ⟨Suite.Diamond, 10⟩,
   ⟨Suite.Spade, 6⟩, ⟨Suite.Spade, 10⟩, ⟨Suite.Diamond, 5⟩, ⟨Suite.Heart, 9⟩,
   ⟨Suite.Spade, 5⟩, ⟨Suite.Club, 9⟩, ⟨Suite.Diamond, 4⟩, ⟨Suite.Diamond, 9⟩,
   ⟨Suite.Spade, 4⟩, ⟨Suite.Spade, 9⟩, ⟨Suite.Diamond, 3⟩, ⟨Suite.Heart, 8⟩,
   ⟨Suite.Spade, 3⟩, ⟨Suite.Club, 8⟩, ⟨Suite.Diamond, 2⟩, ⟨Suite.Diamond, 8⟩,
   ⟨Suite.Spade, 2⟩, ⟨Suite.Spade, 8⟩, ⟨Suite.Diamond, 1⟩, ⟨Suite.Diamond, 7⟩,
   ⟨Suite.Spade, 1⟩, ⟨Suite.Spade, 7⟩]

/-- The cycling initial position: a possible outcome of the default setup. -/
def cycleInit : PlayerStacks × PlayerStacks :=
  (PlayerStacks.new cycleLeftDeck, PlayerStacks.new cycleRightDeck)

/-- The ranks of a card list, in order. -/
def ranksOf (l : List Card) : List Nat := l.map Card.number

/-- Two players' states that differ at most in suites: same ranks at the same
positions in both stacks. -/
def StacksRankEq (p q : PlayerStacks) : Prop :=
  ranksOf p.draw_stack = ranksOf q.draw_stack ∧ ranksOf p.won_stack = ranksOf q.won_stack

/-- Two shuffle oracles applying the same positional recycle permutations:
on rank-identical inputs they produce rank-identical outputs. -/
def ShuffleSync (s1 s2 : Shuffle) : Prop :=
  ∀ l1 l2, ranksOf l1 = ranksOf l2 → ranksOf (s1.f l1) = ranksOf (s2.f l2)

/-- Popping a card removes exactly one card from the player's total. -/
theorem pop_front_some_total (sh : Shuffle) (p : PlayerStacks) (c : Card) (p' : PlayerStacks)
    (h : p.pop_front sh = (some c, p')) : p'.total_cards + 1 = p.total_cards := by
  unfold PlayerStacks.pop_front PlayerStacks.draw_pop at h
  split at h
  · exact absurd h (by simp)
  · rename_i a rest heq
    simp only [Prod.mk.injEq, Option.some.injEq] at h
    obtain ⟨rfl, rfl⟩ := h
    by_cases hc : (p.draw_stack.isEmpty && !p.won_stack.isEmpty) = true
    · rw [if_pos hc] at heq ⊢
      simp only [Bool.and_eq_true, List.isEmpty_iff] at hc
      unfold PlayerStacks.total_cards PlayerStacks.shuffle_won_stack at *
      have hlen : (sh.f p.won_stack).length = p.won_stack.length :=
        (sh.perm p.won_stack).length_eq
      simp only [PlayerStacks.shuffle_won_stack] at heq
      simp [hc.1, ← hlen, heq]
    · rw [if_neg hc] at heq ⊢
      unfold PlayerStacks.total_cards
      simp [heq]
      omega

/-- A `none` pop happens only on an empty player and changes nothing. -/
theorem pop_front_none_eq (sh : Shuffle) (p : PlayerStacks) (p' : PlayerStacks)
    (h : p.pop_front sh = (none, p')) : p' = p ∧ p.is_empty = true := by
  unfold PlayerStacks.pop_front PlayerStacks.draw_pop at h
  split at h
  · rename_i heq
    by_cases hc : (p.draw_stack.isEmpty && !p.won_stack.isEmpty) = true
    · exfalso
      rw [if_pos hc] at heq
      simp only [Bool.and_eq_true, List.isEmpty_iff, Bool.not_eq_true',
        List.isEmpty_eq_false] at hc
      simp only [PlayerStacks.shuffle_won_stack] at heq
      have hlen : (sh.f p.won_stack).length = p.won_stack.length :=
        (sh.perm p.won_stack).length_eq
      rw [heq] at hlen
      exact hc.2 (List.length_eq_zero.mp hlen.symm)
    · rw [if_neg hc] at heq h
      simp only [Prod.mk.injEq, true_and] at h
      refine ⟨h.symm, ?_⟩
      simp only [Bool.and_eq_true, Bool.not_eq_true'] at hc
      unfold PlayerStacks.is_empty
      have hd : p.draw_stack.isEmpty = true := by simp [List.isEmpty_iff, heq]
      have hw : p.won_stack.isEmpty = true := by
        by_contra hw
        exact hc ⟨hd, by simp [Bool.not_eq_true] at hw ⊢; simp [hw]⟩
      simp [hd, hw]
  · exact absurd h (by simp)

/-- `is_empty` is exactly "no cards at all". -/
theorem is_empty_iff_total_zero (p : PlayerStacks) :
    p.is_empty = true ↔ p.total_cards = 0 := by
  unfold PlayerStacks.is_empty PlayerStacks.total_cards
  simp [List.isEmpty_iff, List.length_eq_zero]

/-- A non-empty player always yields a card from `pop_front`. -/
theorem pop_front_some_exists (sh : Shuffle) (p : PlayerStacks) (h : p.is_empty = false) :
    ∃ c p', p.pop_front sh = (some c, p') := by
  rcases hp : p.pop_front sh with ⟨co, p'⟩
  cases co with
  | none =>
    have := (pop_front_none_eq sh p p' hp).2
    rw [this] at h
    cases h
  | some c => exact ⟨c, p', rfl⟩

/-- The fuel of `resolveRoundF` is irrelevant once it exceeds the left
player's card count. -/
theorem resolveRoundF_irrel (sh : Shuffle) :
    ∀ (f g : Nat) (left right : PlayerStacks),
      left.total_cards < f → left.total_cards < g →
      resolveRoundF f sh left right = resolveRoundF g sh left right := by
  intro f
  induction f with
  | zero => intro g l r hf _; exact absurd hf (Nat.not_lt_zero _)
  | succ f ih =>
    intro g l r hf hg
    match g with
    | 0 => exact absurd hg (Nat.not_lt_zero _)
    | g + 1 =>
      simp only [resolveRoundF]
      by_cases hge : (l.is_empty || r.is_empty) = true
      · rw [if_pos hge, if_pos hge]
      · rw [if_neg hge, if_neg hge]
        rcases hl : l.pop_front sh with ⟨lco, l'⟩
        rcases hr : r.pop_front sh with ⟨rco, r'⟩
        cases lco with
        | none => rfl
        | some lc =>
          cases rco with
          | none => rfl
          | some rc =>
            cases hcmp : compare_cards lc rc with
            | LeftWins => simp [hcmp]
            | RightWins => simp [hcmp]
            | Equal =>
              have h1 := pop_front_some_total sh l lc l' hl
              have h2 := ih g l' r' (by omega) (by omega)
              simp [hcmp, h2]

/-- `resolve_round` satisfies the source's recurrence verbatim. -/
theorem resolve_round_eq (sh : Shuffle) (left right : PlayerStacks) :
    resolve_round sh left right =
      (if left.is_empty || right.is_empty then ([], ResolutionResult.GameOver, left, right)
      else
        match left.pop_front sh, right.pop_front sh with
        | (some left_card, left'), (some right_card, right') =>
          match compare_cards left_card right_card with
          | CompareResult.LeftWins =>
              ([left_card, right_card], ResolutionResult.LeftWins, left', right')
          | CompareResult.RightWins =>
              ([left_card, right_card], ResolutionResult.RightWins, left', right')
          | CompareResult.Equal =>
              let t := resolve_round sh left' right'
              (left_card :: right_card :: t.1, t.2.1, t.2.2.1, t.2.2.2)
        | (none, _), _ => ([], ResolutionResult.GameOver, left, right)
        | (some _, _), (none, _) => ([], ResolutionResult.GameOver, left, right)) := by
  unfold resolve_round
  conv_lhs => rw [resolveRoundF]
  by_cases hge : (left.is_empty || right.is_empty) = true
  · rw [if_pos hge, if_pos hge]
  · rw [if_neg hge, if_neg hge]
    rcases hl : left.pop_front sh with ⟨lco, l'⟩
    rcases hr : right.pop_front sh with ⟨rco, r'⟩
    cases lco with
    | none => rfl
    | some lc =>
      cases rco with
      | none => rfl
      | some rc =>
        cases hcmp : compare_cards lc rc with
        | LeftWins => simp [hcmp]
        | RightWins => simp [hcmp]
        | Equal =>
          have h1 := pop_front_some_total sh left lc l' hl
          have h2 := resolveRoundF_irrel sh left.total_cards (l'.total_cards + 1) l' r'
            (by omega) (by omega)
          simp [hcmp, h2]

/-- Depositing cards adds exactly their number to the player's total. -/
theorem append_total (p : PlayerStacks) (cards : List Card) :
    (p.append cards).1.total_cards = p.total_cards + cards.length := by
  simp only [PlayerStacks.append, PlayerStacks.total_cards, List.length_append]
  omega

/-- Card conservation through one (sub-)resolution: the contested cards plus
the two remaining totals account exactly for the two starting totals. -/
theorem resolveRoundF_conserve (sh : Shuffle) :
    ∀ (fuel : Nat) (l r : PlayerStacks),
      (resolveRoundF fuel sh l r).1.length
        + (resolveRoundF fuel sh l r).2.2.1.total_cards
        + (resolveRoundF fuel sh l r).2.2.2.total_cards
      = l.total_cards + r.total_cards := by
  intro fuel
  induction fuel with
  | zero => intro l r; simp [resolveRoundF]
  | succ f ih =>
    intro l r
    simp only [resolveRoundF]
    by_cases hge : (l.is_empty || r.is_empty) = true
    · rw [if_pos hge]
      simp
    · rw [if_neg hge]
      rcases hl : l.pop_front sh with ⟨lco, l'⟩
      rcases hr : r.pop_front sh with ⟨rco, r'⟩
      cases lco with
      | none => simp
      | some lc =>
        cases rco with
        | none => simp
        | some rc =>
          have h1 := pop_front_some_total sh l lc l' hl
          have h2 := pop_front_some_total sh r rc r' hr
          cases hcmp : compare_cards lc rc with
          | LeftWins => simp [hcmp]; omega
          | RightWins => simp [hcmp]; omega
          | Equal =>
            have h3 := ih l' r'
            simp [hcmp]
            omega

/-- A `GameOver` resolution leaves at least one player with no cards. -/
theorem resolveRoundF_gameover (sh : Shuffle) :
    ∀ (fuel : Nat) (l r : PlayerStacks), l.total_cards < fuel →
      (resolveRoundF fuel sh l r).2.1 = ResolutionResult.GameOver →
      ((resolveRoundF fuel sh l r).2.2.1.is_empty = true ∨
        (resolveRoundF fuel sh l r).2.2.2.is_empty = true) := by
  intro fuel
  induction fuel with
  | zero => intro l r h; exact absurd h (Nat.not_lt_zero _)
  | succ f ih =>
    intro l r hlt hres
    simp only [resolveRoundF] at hres ⊢
    by_cases hge : (l.is_empty || r.is_empty) = true
    · rw [if_pos hge] at hres ⊢
      simpa using hge
    · rw [if_neg hge] at hres ⊢
      have hgl : l.is_empty = false ∧ r.is_empty = false := by
        simpa only [Bool.or_eq_true, not_or, Bool.not_eq_true] using hge
      rcases hl : l.pop_front sh with ⟨lco, l'⟩
      rcases hr : r.pop_front sh with ⟨rco, r'⟩
      rw [hl, hr] at hres
      cases lco with
      | none =>
        have := (pop_front_none_eq sh l l' hl).2
        rw [this] at hgl
        exact absurd hgl.1 (by simp)
      | some lc =>
        cases rco with
        | none =>
          have := (pop_front_none_eq sh r r' hr).2
          rw [this] at hgl
          exact absurd hgl.2 (by simp)
        | some rc =>
          have h1 := pop_front_some_total sh l lc l' hl
          cases hcmp : compare_cards lc rc with
          | LeftWins => simp [hcmp] at hres
          | RightWins => simp [hcmp] at hres
          | Equal =>
            simp only [hcmp] at hres ⊢
            exact ih l' r' (by omega) hres

/-- When a round continues, the combined total of the two players is
conserved: every popped card lands in the round winner's won stack. -/
theorem play_round_continue_total (sh : Shuffle) (l r l' r' : PlayerStacks)
    (h : play_round sh l r = (RoundResult.Continue, l', r')) :
    l'.total_cards + r'.total_cards = l.total_cards + r.total_cards := by
  have hc := resolveRoundF_conserve sh (l.total_cards + 1) l r
  unfold play_round resolve_round at h
  rcases hres : resolveRoundF (l.total_cards + 1) sh l r with ⟨cards, res, la, ra⟩
  rw [hres] at h hc
  simp only [] at hc
  cases res with
  | LeftWins =>
    simp only [Prod.mk.injEq] at h
    obtain ⟨-, rfl, rfl⟩ := h
    rw [append_total]
    omega
  | RightWins =>
    simp only [Prod.mk.injEq] at h
    obtain ⟨-, rfl, rfl⟩ := h
    rw [append_total]
    omega
  | GameOver => simp at h

/-- A `GameOver` round leaves at least one player with zero cards. -/
theorem play_round_gameover_zero (sh : Shuffle) (l r l' r' : PlayerStacks)
    (h : play_round sh l r = (RoundResult.GameOver, l', r')) :
    l'.total_cards = 0 ∨ r'.total_cards = 0 := by
  have hg := resolveRoundF_gameover sh (l.total_cards + 1) l r (Nat.lt_succ_self _)
  unfold play_round resolve_round at h
  rcases hres : resolveRoundF (l.total_cards + 1) sh l r with ⟨cards, res, la, ra⟩
  rw [hres] at h hg
  simp only [] at hg
  cases res with
  | LeftWins => simp at h
  | RightWins => simp at h
  | GameOver =>
    simp only [Prod.mk.injEq] at h
    obtain ⟨-, rfl, rfl⟩ := h
    rcases hg rfl with he | he
    · exact Or.inl ((is_empty_iff_total_zero _).mp he)
    · exact Or.inr ((is_empty_iff_total_zero _).mp he)

/-- Started within the cap, the loop returns at most 100001 rounds, and on
exit either a player has no cards left or the returned count is 100001. -/
theorem play_game_loop_spec (sh : Shuffle) (l : PlayerStacks) (r : PlayerStacks) (counter : Nat) :
    counter ≤ 100000 →
      ((play_game_loop sh l r counter).1 ≤ 100001 ∧
        ((play_game_loop sh l r counter).2.1.total_cards = 0 ∨
          (play_game_loop sh l r counter).2.2.total_cards = 0 ∨
          (play_game_loop sh l r counter).1 = 100001)) := by
  induction l, r, counter using play_game_loop.induct sh with
  | case1 left right counter res l r hpr hcap =>
    intro hcnt
    rw [play_game_loop.eq_def, hpr]
    simp only [if_pos hcap]
    exact ⟨by omega, Or.inr (Or.inr (by omega))⟩
  | case2 left right counter l r hcap hpr ih =>
    intro hcnt
    rw [play_game_loop.eq_def, hpr]
    simp only [if_neg hcap]
    exact ih (by omega)
  | case3 left right counter l r hcap hpr =>
    intro hcnt
    rw [play_game_loop.eq_def, hpr]
    simp only [if_neg hcap]
    refine ⟨by omega, ?_⟩
    rcases play_round_gameover_zero sh left right l r hpr with h0 | h0
    · exact Or.inl h0
    · exact Or.inr (Or.inl h0)

/-- If every future round continues, the loop runs to the cap and returns
100001. -/
theorem play_game_loop_forever (sh : Shuffle) (l : PlayerStacks) (r : PlayerStacks) (counter : Nat) :
    counter ≤ 100000 → ContinueForever sh (l, r) →
      (play_game_loop sh l r counter).1 = 100001 := by
  induction l, r, counter using play_game_loop.induct sh with
  | case1 left right counter res l r hpr hcap =>
    intro hcnt hcf
    rw [play_game_loop.eq_def, hpr]
    simp only [if_pos hcap]
    omega
  | case2 left right counter l r hcap hpr ih =>
    intro hcnt hcf
    rw [play_game_loop.eq_def, hpr]
    simp only [if_neg hcap]
    apply ih (by omega)
    intro n
    have hn := hcf (n + 1)
    rw [Function.iterate_succ_apply] at hn
    have hstep : gameStep sh (left, right) = (l, r) := by
      simp [gameStep, hpr]
    rwa [hstep] at hn
  | case3 left right counter l r hcap hpr =>
    intro hcnt hcf
    exfalso
    have h0 := hcf 0
    rw [Function.iterate_zero_apply] at h0
    rw [hpr] at h0
    simp at h0

/-- Unpacking `okRun`: each of the first `n` rounds continues and keeps 52
cards in play. -/
theorem okRun_spec :
    ∀ (n : Nat) (s : PlayerStacks × PlayerStacks), okRun n s = true →
      ∀ i, i < n →
        (roundResId ((gameStep idShuffle)^[i] s) = RoundResult.Continue ∧
          ((gameStep idShuffle)^[i] s).1.total_cards
            + ((gameStep idShuffle)^[i] s).2.total_cards = 52) := by
  intro n
  induction n with
  | zero => intro s h i hi; omega
  | succ n ih =>
    intro s h i hi
    simp only [okRun, Bool.and_eq_true, beq_iff_eq] at h
    obtain ⟨⟨ht, hr⟩, hrest⟩ := h
    cases i with
    | zero => simpa using ⟨hr, ht⟩
    | succ i =>
      have := ih (gameStep idShuffle s) hrest i (by omega)
      rwa [Function.iterate_succ_apply]

/-- A state on a cycle of length `p` revisits only the first `p` iterates. -/
theorem iterate_mod_cycle {α : Type} (f : α → α) (s : α) (p : Nat) (hp : 0 < p)
    (hcyc : f^[p] s = s) : ∀ n, f^[n] s = f^[n % p] s := by
  intro n
  induction n using Nat.strong_induction_on with
  | _ n ih =>
    by_cases h : n < p
    · rw [Nat.mod_eq_of_lt h]
    · push_neg at h
      have h1 : n = (n - p) + p := by omega
      have h2 : f^[n] s = f^[n - p] s := by
        conv_lhs => rw [h1]
        rw [Function.iterate_add_apply, hcyc]
      rw [h2, ih (n - p) (by omega)]
      congr 1
      exact (Nat.mod_eq_sub_mod h).symm

set_option maxRecDepth 10000

/-- The cycling position plays 78 rounds that all continue, with 52 cards
always in play. -/
theorem cycle_okRun : okRun 78 cycleInit = true := by decide

/-- After round 26 the cycling position repeats with period 52. -/
theorem cycle_period :
    (gameStep idShuffle)^[52] ((gameStep idShuffle)^[26] cycleInit)
      = (gameStep idShuffle)^[26] cycleInit := by decide

/-- From the cycling position, every round forever continues. -/
theorem cycle_forever : ContinueForever idShuffle cycleInit := by
  have hok := okRun_spec 78 cycleInit cycle_okRun
  have hper := iterate_mod_cycle (gameStep idShuffle)
    ((gameStep idShuffle)^[26] cycleInit) 52 (by omega) cycle_period
  intro n
  rcases Nat.lt_or_ge n 26 with h | h
  · exact (hok n (by omega)).1
  · have hn : n = (n - 26) + 26 := by omega
    have key : (gameStep idShuffle)^[n] cycleInit
        = (gameStep idShuffle)^[(n - 26) % 52 + 26] cycleInit := by
      conv_lhs => rw [hn]
      rw [Function.iterate_add_apply, hper (n - 26), ← Function.iterate_add_apply]
    rw [key]
    exact (hok ((n - 26) % 52 + 26)
      (by have := Nat.mod_lt (n - 26) (y := 52) (by omega); omega)).1

/-- C1 (amended): for every default-setup pair (52-card deck split evenly)
and every shuffle outcome, `play_game` terminates (it is a total function)
and returns a round count of at most 100001 — the loop plays one round past
the 100000 cap before breaking — and at loop exit either one player has 0
total cards, or both players retain cards and the round cap was reached
(count 100001). -/
theorem play_game_default_cap (sh : Shuffle) (left right : PlayerStacks)
    (_h : DefaultSetup left right) :
    (play_game sh left right).1 ≤ 100001 ∧
      (((play_game sh left right).2.1.total_cards = 0 ∨
          (play_game sh left right).2.2.total_cards = 0) ∨
        (0 < (play_game sh left right).2.1.total_cards ∧
          0 < (play_game sh left right).2.2.total_cards ∧
          (play_game sh left right).1 = 100001)) := by
  clear _h
  unfold play_game
  by_cases hge : (left.is_empty || right.is_empty) = true
  · rw [if_pos hge]
    refine ⟨by omega, Or.inl ?_⟩
    rcases Bool.or_eq_true_iff.mp hge with he | he
    · exact Or.inl ((is_empty_iff_total_zero _).mp he)
    · exact Or.inr ((is_empty_iff_total_zero _).mp he)
  · rw [if_neg hge]
    have hs := play_game_loop_spec sh left right 0 (by omega)
    refine ⟨hs.1, ?_⟩
    rcases hs.2 with h0 | h0 | h0
    · exact Or.inl (Or.inl h0)
    · exact Or.inl (Or.inr h0)
    · by_cases hl0 : (play_game_loop sh left right 0).2.1.total_cards = 0
      · exact Or.inl (Or.inl hl0)
      · by_cases hr0 : (play_game_loop sh left right 0).2.2.total_cards = 0
        · exact Or.inl (Or.inr hr0)
        · exact Or.inr ⟨Nat.pos_of_ne_zero hl0, Nat.pos_of_ne_zero hr0, h0⟩

/-- Witness for `play_game_default_cap`: the ordered halves of the default
deck form a default setup satisfying the conclusion. -/
theorem play_game_default_cap_witness :
    DefaultSetup (PlayerStacks.new ((deck SUITE_SIZE).take 26))
        (PlayerStacks.new ((deck SUITE_SIZE).drop 26)) ∧
      ((play_game idShuffle (PlayerStacks.new ((deck SUITE_SIZE).take 26))
          (PlayerStacks.new ((deck SUITE_SIZE).drop 26))).1 ≤ 100001 ∧
        (((play_game idShuffle (PlayerStacks.new ((deck SUITE_SIZE).take 26))
              (PlayerStacks.new ((deck SUITE_SIZE).drop 26))).2.1.total_cards = 0 ∨
            (play_game idShuffle (PlayerStacks.new ((deck SUITE_SIZE).take 26))
              (PlayerStacks.new ((deck SUITE_SIZE).drop 26))).2.2.total_cards = 0) ∨
          (0 < (play_game idShuffle (PlayerStacks.new ((deck SUITE_SIZE).take 26))
              (PlayerStacks.new ((deck SUITE_SIZE).drop 26))).2.1.total_cards ∧
            0 < (play_game idShuffle (PlayerStacks.new ((deck SUITE_SIZE).take 26))
              (PlayerStacks.new ((deck SUITE_SIZE).drop 26))).2.2.total_cards ∧
            (play_game idShuffle (PlayerStacks.new ((deck SUITE_SIZE).take 26))
              (PlayerStacks.new ((deck SUITE_SIZE).drop 26))).1 = 100001))) :=
  ⟨by unfold DefaultSetup; decide,
    play_game_default_cap idShuffle _ _ (by unfold DefaultSetup; decide)⟩

/-- C1 counterexample: a concrete default setup (an even split of the
52-card deck) on which `play_game` with the identity recycle shuffle — a
possible outcome of the uniform shuffle — returns 100001 rounds, exceeding
the claimed bound of 100000. -/
theorem play_game_exceeds_cap :
    DefaultSetup cycleInit.1 cycleInit.2 ∧
      100000 < (play_game idShuffle cycleInit.1 cycleInit.2).1 := by
  constructor
  · unfold DefaultSetup
    decide
  · have hcf : ContinueForever idShuffle (cycleInit.1, cycleInit.2) := cycle_forever
    have hloop := play_game_loop_forever idShuffle cycleInit.1 cycleInit.2 0 (by omega) hcf
    unfold play_game
    rw [if_neg (by decide)]
    omega

/-- C2: with both players holding draw stack `[1, 13, 10]` (front first, same
ranks) and empty won stacks, the round ties at 1-1, chains through 13-13 and
10-10, exhausts both players, and `play_round` reports game over with both
totals 0: the six contested cards are discarded, awarded to neither player. -/
theorem play_round_tie_exhaustion (sh : Shuffle) :
    play_round sh
        (PlayerStacks.new [⟨Suite.Club, 1⟩, ⟨Suite.Club, 13⟩, ⟨Suite.Club, 10⟩])
        (PlayerStacks.new [⟨Suite.Club, 1⟩, ⟨Suite.Club, 13⟩, ⟨Suite.Club, 10⟩])
      = (RoundResult.GameOver, ⟨[], []⟩, ⟨[], []⟩) ∧
    (play_round sh
        (PlayerStacks.new [⟨Suite.Club, 1⟩, ⟨Suite.Club, 13⟩, ⟨Suite.Club, 10⟩])
        (PlayerStacks.new [⟨Suite.Club, 1⟩, ⟨Suite.Club, 13⟩, ⟨Suite.Club, 10⟩])).2.1.total_cards
      = 0 ∧
    (play_round sh
        (PlayerStacks.new [⟨Suite.Club, 1⟩, ⟨Suite.Club, 13⟩, ⟨Suite.Club, 10⟩])
        (PlayerStacks.new [⟨Suite.Club, 1⟩, ⟨Suite.Club, 13⟩, ⟨Suite.Club, 10⟩])).2.2.total_cards
      = 0 :=
  ⟨rfl, rfl, rfl⟩

/-- Witness for `play_round_tie_exhaustion` at the identity shuffle. -/
theorem play_round_tie_exhaustion_witness :
    play_round idShuffle
        (PlayerStacks.new [⟨Suite.Club, 1⟩, ⟨Suite.Club, 13⟩, ⟨Suite.Club, 10⟩])
        (PlayerStacks.new [⟨Suite.Club, 1⟩, ⟨Suite.Club, 13⟩, ⟨Suite.Club, 10⟩])
      = (RoundResult.GameOver, ⟨[], []⟩, ⟨[], []⟩) :=
  (play_round_tie_exhaustion idShuffle).1

/-- C3: whenever `play_round` returns `Continue`, the two players' combined
total is conserved — every popped card ends up in the round winner's won
stack, and no card is duplicated or created. -/
theorem play_round_conserves_on_continue (sh : Shuffle) (l r l' r' : PlayerStacks)
    (h : play_round sh l r = (RoundResult.Continue, l', r')) :
    l'.total_cards + r'.total_cards = l.total_cards + r.total_cards :=
  play_round_continue_total sh l r l' r' h

/-- Witness for `play_round_conserves_on_continue` on a one-card round. -/
theorem play_round_conserves_on_continue_witness :
    play_round idShuffle (PlayerStacks.new [⟨Suite.Club, 13⟩])
        (PlayerStacks.new [⟨Suite.Club, 1⟩])
      = (RoundResult.Continue, ⟨[], [⟨Suite.Club, 13⟩, ⟨Suite.Club, 1⟩]⟩, ⟨[], []⟩) ∧
    (⟨[], [⟨Suite.Club, 13⟩, ⟨Suite.Club, 1⟩]⟩ : PlayerStacks).total_cards
        + (⟨[], []⟩ : PlayerStacks).total_cards
      = (PlayerStacks.new [⟨Suite.Club, 13⟩]).total_cards
        + (PlayerStacks.new [⟨Suite.Club, 1⟩]).total_cards :=
  ⟨rfl, play_round_conserves_on_continue idShuffle _ _ _ _ rfl⟩

/-- C5: if either player is empty when a round begins, `play_round` returns
game over and moves no cards: both players are returned exactly as given. -/
theorem play_round_empty_noop (sh : Shuffle) (l r : PlayerStacks)
    (h : l.is_empty = true ∨ r.is_empty = true) :
    play_round sh l r = (RoundResult.GameOver, l, r) := by
  have hg : (l.is_empty || r.is_empty) = true := by
    rcases h with h | h <;> simp [h]
  unfold play_round resolve_round
  simp only [resolveRoundF, if_pos hg]

/-- Witness for `play_round_empty_noop`: an empty left player. -/
theorem play_round_empty_noop_witness :
    ((⟨[], []⟩ : PlayerStacks).is_empty = true ∨
        (PlayerStacks.new [⟨Suite.Club, 1⟩]).is_empty = true) ∧
      play_round idShuffle ⟨[], []⟩ (PlayerStacks.new [⟨Suite.Club, 1⟩])
        = (RoundResult.GameOver, ⟨[], []⟩, PlayerStacks.new [⟨Suite.Club, 1⟩]) :=
  ⟨Or.inl rfl, play_round_empty_noop idShuffle _ _ (Or.inl rfl)⟩

/-- C6: with A = `[1, 13, 10]` and B = `[1, 12, 11, 12]` (fronts first), one
round ties at 1-1, A wins the chain with 13 against 12 and collects all four
contested cards: afterwards A has 5 cards and B has 2. -/
theorem play_round_tie_chain (sh : Shuffle) :
    (play_round sh
        (PlayerStacks.new [⟨Suite.Club, 1⟩, ⟨Suite.Club, 13⟩, ⟨Suite.Club, 10⟩])
        (PlayerStacks.new
          [⟨Suite.Club, 1⟩, ⟨Suite.Club, 12⟩, ⟨Suite.Club, 11⟩, ⟨Suite.Club, 12⟩])).2.1.total_cards
      = 5 ∧
    (play_round sh
        (PlayerStacks.new [⟨Suite.Club, 1⟩, ⟨Suite.Club, 13⟩, ⟨Suite.Club, 10⟩])
        (PlayerStacks.new
          [⟨Suite.Club, 1⟩, ⟨Suite.Club, 12⟩, ⟨Suite.Club, 11⟩, ⟨Suite.Club, 12⟩])).2.2.total_cards
      = 2 :=
  ⟨rfl, rfl⟩

/-- Witness for `play_round_tie_chain` at the identity shuffle. -/
theorem play_round_tie_chain_witness :
    (play_round idShuffle
        (PlayerStacks.new [⟨Suite.Club, 1⟩, ⟨Suite.Club, 13⟩, ⟨Suite.Club, 10⟩])
        (PlayerStacks.new
          [⟨Suite.Club, 1⟩, ⟨Suite.Club, 12⟩, ⟨Suite.Club, 11⟩, ⟨Suite.Club, 12⟩])).2.1.total_cards
      = 5 :=
  (play_round_tie_chain idShuffle).1

/-- C8: `Card::create` succeeds with exactly the requested suite and rank iff
the rank lies in `[1, 13]`, and yields `none` (an absence, not an exception)
iff the rank is outside `[1, 13]`. -/
theorem card_create_range (s : Suite) (n : Nat) :
    (Card.create s n = some ⟨s, n⟩ ↔ (1 ≤ n ∧ n ≤ 13)) ∧
      (Card.create s n = none ↔ (n < 1 ∨ 13 < n)) := by
  unfold Card.create SUITE_SIZE
  by_cases h : n < 1 ∨ n > 13
  · rw [if_pos h]
    exact ⟨⟨fun hc => absurd hc (by simp), fun hn => absurd h (by omega)⟩,
      ⟨fun _ => by omega, fun _ => rfl⟩⟩
  · rw [if_neg h]
    exact ⟨⟨fun _ => by omega, fun _ => rfl⟩,
      ⟨fun hc => absurd hc (by simp), fun hn => absurd hn (by omega)⟩⟩

/-- Witness for `card_create_range` at rank 5 and at rank 14. -/
theorem card_create_range_witness :
    ((Card.create Suite.Heart 5 = some ⟨Suite.Heart, 5⟩ ↔ (1 ≤ 5 ∧ 5 ≤ 13)) ∧
        (Card.create Suite.Heart 5 = none ↔ (5 < 1 ∨ 13 < 5))) ∧
      ((Card.create Suite.Spade 14 = some ⟨Suite.Spade, 14⟩ ↔ (1 ≤ 14 ∧ 14 ≤ 13)) ∧
        (Card.create Suite.Spade 14 = none ↔ (14 < 1 ∨ 13 < 14))) :=
  ⟨card_create_range Suite.Heart 5, card_create_range Suite.Spade 14⟩

/-- C9: `append` places the batch at the back of the won stack preserving its
internal order, leaves the draw stack untouched, always succeeds, and leaves
the caller's batch empty (the source moves rather than copies). -/
theorem append_spec (p : PlayerStacks) (cards : List Card) :
    p.append cards
      = ({ draw_stack := p.draw_stack, won_stack := p.won_stack ++ cards }, []) :=
  rfl

/-- Witness for `append_spec` on a concrete state and batch. -/
theorem append_spec_witness :
    (⟨[⟨Suite.Club, 2⟩], [⟨Suite.Heart, 3⟩]⟩ : PlayerStacks).append
        [⟨Suite.Spade, 4⟩, ⟨Suite.Diamond, 5⟩]
      = (⟨[⟨Suite.Club, 2⟩], [⟨Suite.Heart, 3⟩, ⟨Suite.Spade, 4⟩, ⟨Suite.Diamond, 5⟩]⟩, []) :=
  append_spec ⟨[⟨Suite.Club, 2⟩], [⟨Suite.Heart, 3⟩]⟩ [⟨Suite.Spade, 4⟩, ⟨Suite.Diamond, 5⟩]

/-- C10: if either player is already empty, `play_game` returns round count 0
and both players' stacks unchanged — no round is attempted. -/
theorem play_game_empty_zero_rounds (sh : Shuffle) (l r : PlayerStacks)
    (h : l.is_empty = true ∨ r.is_empty = true) :
    play_game sh l r = (0, l, r) := by
  have hg : (l.is_empty || r.is_empty) = true := by
    rcases h with h | h <;> simp [h]
  unfold play_game
  rw [if_pos hg]

/-- Witness for `play_game_empty_zero_rounds`: an empty right player. -/
theorem play_game_empty_zero_rounds_witness :
    ((PlayerStacks.new [⟨Suite.Club, 1⟩]).is_empty = true ∨
        (⟨[], []⟩ : PlayerStacks).is_empty = true) ∧
      play_game idShuffle (PlayerStacks.new [⟨Suite.Club, 1⟩]) ⟨[], []⟩
        = (0, PlayerStacks.new [⟨Suite.Club, 1⟩], ⟨[], []⟩) :=
  ⟨Or.inr rfl, play_game_empty_zero_rounds idShuffle _ _ (Or.inr rfl)⟩

/-- C4: `pop_front` first recycles when the draw stack is dry and the won
stack is not — moving every won card into the draw stack as a permutation and
clearing the won stack — then pops; on a fully empty player it returns `none`
and changes nothing; otherwise it pops the front draw card.  A returned card
lowers the total by exactly one, a `none` leaves the state untouched, and the
recycle itself changes no card count. -/
theorem pop_front_spec (sh : Shuffle) (p : PlayerStacks) :
    (p.draw_stack = [] → p.won_stack ≠ [] →
      ((sh.f p.won_stack).Perm p.won_stack ∧ sh.f p.won_stack ≠ [] ∧
        p.pop_front sh = ((sh.f p.won_stack).head?,
          { draw_stack := (sh.f p.won_stack).tail, won_stack := [] }))) ∧
    (p.draw_stack = [] → p.won_stack = [] → p.pop_front sh = (none, p)) ∧
    (∀ c cs, p.draw_stack = c :: cs →
      p.pop_front sh = (some c, { draw_stack := cs, won_stack := p.won_stack })) ∧
    (∀ c p', p.pop_front sh = (some c, p') → p'.total_cards + 1 = p.total_cards) ∧
    (∀ p', p.pop_front sh = (none, p') → p' = p) ∧
    (p.draw_stack = [] → (p.shuffle_won_stack sh).total_cards = p.total_cards) := by
  refine ⟨?_, ?_, ?_, ?_, ?_, ?_⟩
  · intro hd hw
    refine ⟨sh.perm p.won_stack, ?_, ?_⟩
    · intro hnil
      have hlen : (sh.f p.won_stack).length = p.won_stack.length :=
        (sh.perm p.won_stack).length_eq
      rw [hnil] at hlen
      exact hw (List.length_eq_zero.mp hlen.symm)
    · have hc : (p.draw_stack.isEmpty && !p.won_stack.isEmpty) = true := by
        simp [List.isEmpty_iff, hd, hw]
      unfold PlayerStacks.pop_front
      rw [if_pos hc]
      unfold PlayerStacks.shuffle_won_stack PlayerStacks.draw_pop
      rcases hsf : sh.f p.won_stack with _ | ⟨a, rest⟩ <;> rfl
  · intro hd hw
    have hc : (p.draw_stack.isEmpty && !p.won_stack.isEmpty) = false := by
      simp [List.isEmpty_iff, hd, hw]
    unfold PlayerStacks.pop_front
    rw [hc, if_neg Bool.false_ne_true]
    unfold PlayerStacks.draw_pop
    rw [hd]
  · intro c cs hd
    have hc : (p.draw_stack.isEmpty && !p.won_stack.isEmpty) = false := by
      simp [hd]
    unfold PlayerStacks.pop_front
    rw [hc, if_neg Bool.false_ne_true]
    unfold PlayerStacks.draw_pop
    rw [hd]
  · exact fun c p' h => pop_front_some_total sh p c p' h
  · exact fun p' h => (pop_front_none_eq sh p p' h).1
  · intro hd
    unfold PlayerStacks.shuffle_won_stack PlayerStacks.total_cards
    simp [hd, (sh.perm p.won_stack).length_eq]

/-- Witness for `pop_front_spec`: a recycle pop, an empty pop, and a plain
pop on concrete states. -/
theorem pop_front_spec_witness :
    ((idShuffle.f [⟨Suite.Club, 3⟩]).Perm [⟨Suite.Club, 3⟩] ∧
      idShuffle.f [⟨Suite.Club, 3⟩] ≠ [] ∧
        (⟨[], [⟨Suite.Club, 3⟩]⟩ : PlayerStacks).pop_front idShuffle
          = ((idShuffle.f [⟨Suite.Club, 3⟩]).head?,
            { draw_stack := (idShuffle.f [⟨Suite.Club, 3⟩]).tail, won_stack := [] })) ∧
      (⟨[], []⟩ : PlayerStacks).pop_front idShuffle = (none, ⟨[], []⟩) ∧
      (⟨[⟨Suite.Heart, 2⟩], [⟨Suite.Club, 3⟩]⟩ : PlayerStacks).pop_front idShuffle
        = (some ⟨Suite.Heart, 2⟩, { draw_stack := [], won_stack := [⟨Suite.Club, 3⟩] }) :=
  ⟨(pop_front_spec idShuffle ⟨[], [⟨Suite.Club, 3⟩]⟩).1 rfl (by simp),
    (pop_front_spec idShuffle ⟨[], []⟩).2.1 rfl rfl,
    (pop_front_spec idShuffle ⟨[⟨Suite.Heart, 2⟩], [⟨Suite.Club, 3⟩]⟩).2.2.1
      ⟨Suite.Heart, 2⟩ [] rfl⟩

/-- Rank-identical lists have the same length. -/
theorem ranksOf_length {l1 l2 : List Card} (h : ranksOf l1 = ranksOf l2) :
    l1.length = l2.length := by
  have := congrArg List.length h
  simpa [ranksOf] using this

/-- Lists of equal length are simultaneously empty. -/
theorem isEmpty_congr {l1 l2 : List Card} (h : l1.length = l2.length) :
    l1.isEmpty = l2.isEmpty := by
  cases l1 <;> cases l2 <;> simp_all

/-- Rank-identical players are simultaneously empty. -/
theorem stacksRankEq_isEmpty {p q : PlayerStacks} (h : StacksRankEq p q) :
    p.is_empty = q.is_empty := by
  unfold PlayerStacks.is_empty
  rw [isEmpty_congr (ranksOf_length h.1), isEmpty_congr (ranksOf_length h.2)]

/-- Rank-identical players hold the same number of cards. -/
theorem stacksRankEq_total {p q : PlayerStacks} (h : StacksRankEq p q) :
    p.total_cards = q.total_cards := by
  unfold PlayerStacks.total_cards
  rw [ranksOf_length h.1, ranksOf_length h.2]

/-- The deque pop preserves rank equivalence and pops rank-equal cards. -/
theorem draw_pop_sync {a b : PlayerStacks} (h : StacksRankEq a b) :
    Option.map Card.number a.draw_pop.1 = Option.map Card.number b.draw_pop.1 ∧
      StacksRankEq a.draw_pop.2 b.draw_pop.2 := by
  obtain ⟨ha, hb⟩ := h
  unfold PlayerStacks.draw_pop
  rcases da : a.draw_stack with _ | ⟨x, xs⟩ <;> rcases db : b.draw_stack with _ | ⟨y, ys⟩
  · exact ⟨rfl, ⟨ha, hb⟩⟩
  · rw [da, db] at ha
    simp [ranksOf] at ha
  · rw [da, db] at ha
    simp [ranksOf] at ha
  · rw [da, db] at ha
    simp only [ranksOf, List.map_cons, List.cons.injEq] at ha
    exact ⟨by simpa using ha.1, ⟨ha.2, hb⟩⟩

/-- `pop_front` under synchronised oracles: rank-identical players pop
rank-equal cards and remain rank-identical. -/
theorem pop_front_sync {s1 s2 : Shuffle} (hs : ShuffleSync s1 s2) {p q : PlayerStacks}
    (h : StacksRankEq p q) :
    Option.map Card.number (p.pop_front s1).1 = Option.map Card.number (q.pop_front s2).1 ∧
      StacksRankEq (p.pop_front s1).2 (q.pop_front s2).2 := by
  obtain ⟨h1, h2⟩ := h
  unfold PlayerStacks.pop_front
  have hcond : (p.draw_stack.isEmpty && !p.won_stack.isEmpty)
      = (q.draw_stack.isEmpty && !q.won_stack.isEmpty) := by
    rw [isEmpty_congr (ranksOf_length h1), isEmpty_congr (ranksOf_length h2)]
  rw [← hcond]
  by_cases hc : (p.draw_stack.isEmpty && !p.won_stack.isEmpty) = true
  · rw [if_pos hc, if_pos hc]
    exact draw_pop_sync ⟨hs p.won_stack q.won_stack h2, rfl⟩
  · rw [if_neg hc, if_neg hc]
    exact draw_pop_sync ⟨h1, h2⟩

/-- Round resolution is suite-blind: under synchronised oracles,
rank-identical inputs give the same resolution, rank-identical contested
cards, and rank-identical final states. -/
theorem resolveRoundF_sync {s1 s2 : Shuffle} (hs : ShuffleSync s1 s2) :
    ∀ (fuel : Nat) (l1 r1 l2 r2 : PlayerStacks),
      StacksRankEq l1 l2 → StacksRankEq r1 r2 →
      ((resolveRoundF fuel s1 l1 r1).2.1 = (resolveRoundF fuel s2 l2 r2).2.1 ∧
        ranksOf (resolveRoundF fuel s1 l1 r1).1 = ranksOf (resolveRoundF fuel s2 l2 r2).1 ∧
        StacksRankEq (resolveRoundF fuel s1 l1 r1).2.2.1 (resolveRoundF fuel s2 l2 r2).2.2.1 ∧
        StacksRankEq (resolveRoundF fuel s1 l1 r1).2.2.2 (resolveRoundF fuel s2 l2 r2).2.2.2) := by
  intro fuel
  induction fuel with
  | zero => intro l1 r1 l2 r2 hl hr; exact ⟨rfl, rfl, hl, hr⟩
  | succ f ih =>
    intro l1 r1 l2 r2 hl hr
    simp only [resolveRoundF]
    have hguard : (l1.is_empty || r1.is_empty) = (l2.is_empty || r2.is_empty) := by
      rw [stacksRankEq_isEmpty hl, stacksRankEq_isEmpty hr]
    rw [← hguard]
    by_cases hg : (l1.is_empty || r1.is_empty) = true
    · rw [if_pos hg, if_pos hg]
      exact ⟨rfl, rfl, hl, hr⟩
    · rw [if_neg hg, if_neg hg]
      have hpl := pop_front_sync hs hl
      have hpr := pop_front_sync hs hr
      rcases e1 : l1.pop_front s1 with ⟨lco1, l1'⟩
      rcases e2 : l2.pop_front s2 with ⟨lco2, l2'⟩
      rcases e3 : r1.pop_front s1 with ⟨rco1, r1'⟩
      rcases e4 : r2.pop_front s2 with ⟨rco2, r2'⟩
      rw [e1, e2] at hpl
      rw [e3, e4] at hpr
      obtain ⟨hpl1, hpl2⟩ := hpl
      obtain ⟨hpr1, hpr2⟩ := hpr
      cases lco1 with
      | none =>
        cases lco2 with
        | none => exact ⟨rfl, rfl, hl, hr⟩
        | some c2 => simp at hpl1
      | some c1 =>
        cases lco2 with
        | none => simp at hpl1
        | some c2 =>
          cases rco1 with
          | none =>
            cases rco2 with
            | none => exact ⟨rfl, rfl, hl, hr⟩
            | some d2 => simp at hpr1
          | some d1 =>
            cases rco2 with
            | none => simp at hpr1
            | some d2 =>
              have hcn : c1.number = c2.number := by simpa using hpl1
              have hdn : d1.number = d2.number := by simpa using hpr1
              have hcmp : compare_cards c1 d1 = compare_cards c2 d2 := by
                unfold compare_cards
                rw [hcn, hdn]
              cases hc : compare_cards c2 d2 with
              | LeftWins =>
                simp only [hcmp, hc]
                exact ⟨trivial, by simp [ranksOf, hcn, hdn], hpl2, hpr2⟩
              | RightWins =>
                simp only [hcmp, hc]
                exact ⟨trivial, by simp [ranksOf, hcn, hdn], hpl2, hpr2⟩
              | Equal =>
                simp only [hcmp, hc]
                have hrec := ih l1' r1' l2' r2' hpl2 hpr2
                refine ⟨hrec.1, ?_, hrec.2.2.1, hrec.2.2.2⟩
                simp only [ranksOf, List.map_cons, List.cons.injEq]
                refine ⟨hcn, hdn, ?_⟩
                simpa [ranksOf] using hrec.2.1

/-- A successful pop can only come from a non-empty player. -/
theorem pop_front_some_not_empty (sh : Shuffle) (p : PlayerStacks) (c : Card)
    (p' : PlayerStacks) (h : p.pop_front sh = (some c, p')) : p.is_empty = false := by
  cases hb : p.is_empty with
  | false => rfl
  | true =>
    have h0 : p.total_cards = 0 := (is_empty_iff_total_zero p).mp hb
    have := pop_front_some_total sh p c p' h
    omega

/-- One played round is suite-blind: under synchronised oracles,
rank-identical inputs give the same round result and rank-identical final
states. -/
theorem play_round_sync {s1 s2 : Shuffle} (hs : ShuffleSync s1 s2)
    {l1 r1 l2 r2 : PlayerStacks} (hl : StacksRankEq l1 l2) (hr : StacksRankEq r1 r2) :
    (play_round s1 l1 r1).1 = (play_round s2 l2 r2).1 ∧
      StacksRankEq (play_round s1 l1 r1).2.1 (play_round s2 l2 r2).2.1 ∧
      StacksRankEq (play_round s1 l1 r1).2.2 (play_round s2 l2 r2).2.2 := by
  have htot : l1.total_cards = l2.total_cards := stacksRankEq_total hl
  have hsync := resolveRoundF_sync hs (l1.total_cards + 1) l1 r1 l2 r2 hl hr
  unfold play_round resolve_round
  rw [← htot]
  rcases ea : resolveRoundF (l1.total_cards + 1) s1 l1 r1 with ⟨ca, resa, la, ra⟩
  rcases eb : resolveRoundF (l1.total_cards + 1) s2 l2 r2 with ⟨cb, resb, lb, rb⟩
  rw [ea, eb] at hsync
  obtain ⟨hres, hcards, hla, hra⟩ := hsync
  have hres' : resa = resb := hres
  have hcards' : ranksOf ca = ranksOf cb := hcards
  have hla' : StacksRankEq la lb := hla
  have hra' : StacksRankEq ra rb := hra
  cases hres'
  cases resa with
  | LeftWins =>
    refine ⟨rfl, ⟨hla'.1, ?_⟩, hra'⟩
    show ranksOf (la.won_stack ++ ca) = ranksOf (lb.won_stack ++ cb)
    have h1 := hla'.2
    unfold ranksOf at h1 hcards' ⊢
    rw [List.map_append, List.map_append, h1, hcards']
  | RightWins =>
    refine ⟨rfl, hla', ⟨hra'.1, ?_⟩⟩
    show ranksOf (ra.won_stack ++ ca) = ranksOf (rb.won_stack ++ cb)
    have h1 := hra'.2
    unfold ranksOf at h1 hcards' ⊢
    rw [List.map_append, List.map_append, h1, hcards']
  | GameOver => exact ⟨rfl, hla', hra'⟩

/-- C7: the outcome of a round depends on ranks only.  First part: two runs
on states that differ only in suites (same ranks at the same positions),
under oracles applying the same positional recycle permutations, return the
same round result and the same per-player card counts.  Second and
third parts: when the two popped cards have different ranks, the holder of
the higher rank — the left or the right player — receives the entire
contested sequence onto their won stack, whatever the suites. -/
theorem play_round_suite_blind :
    (∀ (s1 s2 : Shuffle) (l1 r1 l2 r2 : PlayerStacks),
      ShuffleSync s1 s2 → StacksRankEq l1 l2 → StacksRankEq r1 r2 →
        ((play_round s1 l1 r1).1 = (play_round s2 l2 r2).1 ∧
          (play_round s1 l1 r1).2.1.total_cards = (play_round s2 l2 r2).2.1.total_cards ∧
          (play_round s1 l1 r1).2.2.total_cards = (play_round s2 l2 r2).2.2.total_cards)) ∧
    (∀ (sh : Shuffle) (l r : PlayerStacks) (lc rc : Card) (l' r' : PlayerStacks),
      l.pop_front sh = (some lc, l') → r.pop_front sh = (some rc, r') →
      rc.number < lc.number →
        play_round sh l r = (RoundResult.Continue,
          { draw_stack := l'.draw_stack, won_stack := l'.won_stack ++ [lc, rc] }, r')) ∧
    (∀ (sh : Shuffle) (l r : PlayerStacks) (lc rc : Card) (l' r' : PlayerStacks),
      l.pop_front sh = (some lc, l') → r.pop_front sh = (some rc, r') →
      lc.number < rc.number →
        play_round sh l r = (RoundResult.Continue, l',
          { draw_stack := r'.draw_stack, won_stack := r'.won_stack ++ [lc, rc] })) := by
  refine ⟨?_, ?_, ?_⟩
  · intro s1 s2 l1 r1 l2 r2 hs hl hr
    have h := play_round_sync hs hl hr
    exact ⟨h.1, stacksRankEq_total h.2.1, stacksRankEq_total h.2.2⟩
  · intro sh l r lc rc l' r' hl hr hlt
    have hle : l.is_empty = false := pop_front_some_not_empty sh l lc l' hl
    have hre : r.is_empty = false := pop_front_some_not_empty sh r rc r' hr
    have hg : (l.is_empty || r.is_empty) = false := by rw [hle, hre]; rfl
    have hcmp : compare_cards lc rc = CompareResult.LeftWins := by
      unfold compare_cards
      rw [if_neg (by omega), if_pos (by omega)]
    unfold play_round
    rw [resolve_round_eq, hg, if_neg Bool.false_ne_true, hl, hr]
    simp only [hcmp]
    rfl
  · intro sh l r lc rc l' r' hl hr hlt
    have hle : l.is_empty = false := pop_front_some_not_empty sh l lc l' hl
    have hre : r.is_empty = false := pop_front_some_not_empty sh r rc r' hr
    have hg : (l.is_empty || r.is_empty) = false := by rw [hle, hre]; rfl
    have hcmp : compare_cards lc rc = CompareResult.RightWins := by
      unfold compare_cards
      rw [if_neg (by omega), if_neg (by omega)]
    unfold play_round
    rw [resolve_round_eq, hg, if_neg Bool.false_ne_true, hl, hr]
    simp only [hcmp]
    rfl

/-- Witness for `play_round_suite_blind`: two one-card games that differ only
in suites, and concrete higher-rank outright wins for each side. -/
theorem play_round_suite_blind_witness :
    (ShuffleSync idShuffle idShuffle ∧
      StacksRankEq (PlayerStacks.new [⟨Suite.Club, 13⟩]) (PlayerStacks.new [⟨Suite.Heart, 13⟩]) ∧
      StacksRankEq (PlayerStacks.new [⟨Suite.Club, 1⟩]) (PlayerStacks.new [⟨Suite.Spade, 1⟩]) ∧
      (play_round idShuffle (PlayerStacks.new [⟨Suite.Club, 13⟩])
            (PlayerStacks.new [⟨Suite.Club, 1⟩])).1
        = (play_round idShuffle (PlayerStacks.new [⟨Suite.Heart, 13⟩])
            (PlayerStacks.new [⟨Suite.Spade, 1⟩])).1 ∧
      (play_round idShuffle (PlayerStacks.new [⟨Suite.Club, 13⟩])
            (PlayerStacks.new [⟨Suite.Club, 1⟩])).2.1.total_cards
        = (play_round idShuffle (PlayerStacks.new [⟨Suite.Heart, 13⟩])
            (PlayerStacks.new [⟨Suite.Spade, 1⟩])).2.1.total_cards) ∧
    play_round idShuffle (PlayerStacks.new [⟨Suite.Club, 13⟩])
        (PlayerStacks.new [⟨Suite.Club, 1⟩])
      = (RoundResult.Continue,
          { draw_stack := [], won_stack := [] ++ [⟨Suite.Club, 13⟩, ⟨Suite.Club, 1⟩] },
          ⟨[], []⟩) ∧
    play_round idShuffle (PlayerStacks.new [⟨Suite.Club, 1⟩])
        (PlayerStacks.new [⟨Suite.Heart, 13⟩])
      = (RoundResult.Continue, ⟨[], []⟩,
          { draw_stack := [], won_stack := [] ++ [⟨Suite.Club, 1⟩, ⟨Suite.Heart, 13⟩] }) := by
  have hsync : ShuffleSync idShuffle idShuffle := fun l1 l2 h => h
  have hl : StacksRankEq (PlayerStacks.new [⟨Suite.Club, 13⟩])
      (PlayerStacks.new [⟨Suite.Heart, 13⟩]) := ⟨rfl, rfl⟩
  have hr : StacksRankEq (PlayerStacks.new [⟨Suite.Club, 1⟩])
      (PlayerStacks.new [⟨Suite.Spade, 1⟩]) := ⟨rfl, rfl⟩
  have hmain := play_round_suite_blind.1 idShuffle idShuffle _ _ _ _ hsync hl hr
  exact ⟨⟨hsync, hl, hr, hmain.1, hmain.2.1⟩,
    play_round_suite_blind.2.1 idShuffle (PlayerStacks.new [⟨Suite.Club, 13⟩])
      (PlayerStacks.new [⟨Suite.Club, 1⟩]) ⟨Suite.Club, 13⟩ ⟨Suite.Club, 1⟩
      ⟨[], []⟩ ⟨[], []⟩ rfl rfl (by decide),
    play_round_suite_blind.2.2 idShuffle (PlayerStacks.new [⟨Suite.Club, 1⟩])
      (PlayerStacks.new [⟨Suite.Heart, 13⟩]) ⟨Suite.Club, 1⟩ ⟨Suite.Heart, 13⟩
      ⟨[], []⟩ ⟨[], []⟩ rfl rfl (by decide)⟩
